import Mathlib

/-!
Shallow embedding of the `epb-prompt-git` status-line generator.

The Rust sources embedded here are:
  * `src/repo/change.rs`  — `Change`, `Changes` and their rendering;
  * `src/repo/branch.rs`  — `RemoteBranch`, `Divergence`, `Branch` and rendering;
  * `src/repo/mod.rs`     — `Commit`, `Tag`, `DetachedRef`, `ConflictKind`,
    `ConflictRef`, `Prompt` and the `Display` implementation;
  * `src/main.rs`         — `get_prompt`, the classifier over the parsed
    porcelain data;
  * `src/util.rs`         — `path_rel_to_abs`, `try_get_repo_for`.

Rust `Formatter` state is made explicit: the `#` (alternate) flag and the `0`
(sign-aware-zero-pad, used by the program as a "sparse" flag) are `Bool`
parameters, the optional width is an `Option Nat`.  The `termion` escape
sequences written in alternate mode are fixed strings, reproduced below.
-/

/-- `termion::style::Bold`. -/
def escBold : String := "\x1b[1m"

/-- `termion::style::Reset`. -/
def escReset : String := "\x1b[m"

/-- `termion::color::Fg(termion::color::Red)`. -/
def escFgRed : String := "\x1b[38;5;1m"

/-- `termion::color::Fg(termion::color::Green)`. -/
def escFgGreen : String := "\x1b[38;5;2m"

/-- `termion::color::Fg(termion::color::Yellow)`. -/
def escFgYellow : String := "\x1b[38;5;3m"

/-- `termion::color::Fg(termion::color::Blue)`. -/
def escFgBlue : String := "\x1b[38;5;4m"

/-- `termion::color::Fg(termion::color::Magenta)`. -/
def escFgMagenta : String := "\x1b[38;5;5m"

/-- `termion::color::Fg(termion::color::Cyan)`. -/
def escFgCyan : String := "\x1b[38;5;6m"

/-- `repo::change::Change` (src/repo/change.rs): the five change kinds, in
declaration order `Add = 0, Mod = 1, Del = 2, Ren = 3, Typ = 4`. -/
inductive Change
  | Add
  | Mod
  | Del
  | Ren
  | Typ
deriving DecidableEq, Repr

/-- The kinds in declaration order, as produced by `Changes::iter` via
`Change::from_idx` over indices `0..5`. -/
def Change.kinds : List Change := [.Add, .Mod, .Del, .Ren, .Typ]

/-- `Change::fmt_with` (src/repo/change.rs): one sigil followed by the count;
alternate mode wraps the pair in a per-kind color. -/
def Change.fmtWith (alternate : Bool) (c : Change) (value : Nat) : String :=
  if alternate then
    match c with
    | .Add => escFgGreen ++ "+" ++ toString value ++ escReset
    | .Mod => escFgYellow ++ "~" ++ toString value ++ escReset
    | .Del => escFgRed ++ "-" ++ toString value ++ escReset
    | .Ren => escFgCyan ++ "*" ++ toString value ++ escReset
    | .Typ => escFgMagenta ++ "?" ++ toString value ++ escReset
  else
    (match c with
      | .Add => "+"
      | .Mod => "~"
      | .Del => "-"
      | .Ren => "*"
      | .Typ => "?") ++ toString value

/-- `repo::change::Changes` (src/repo/change.rs): `[usize; 5]` indexed by
`Change`, modelled as a total function from the kinds. -/
def Changes := Change → Nat

/-- `Changes::new`: all five counts zero. -/
def Changes.new : Changes := fun _ => 0

/-- Write one count (the `IndexMut` access `changes[kind] = n`). -/
def Changes.set (cs : Changes) (c : Change) (n : Nat) : Changes :=
  fun k => if k = c then n else cs k

/-- `Changes::iter`: the `(kind, count)` pairs in declaration order. -/
def Changes.iter (cs : Changes) : List (Change × Nat) :=
  Change.kinds.map fun k => (k, cs k)

/-- `Changes::any`: `self.iter().any(|(_, &v)| v != 0)`. -/
def Changes.any (cs : Changes) : Bool :=
  cs.iter.any fun p => p.2 != 0

/-- `impl Display for Changes`: iterate, keep the nonzero entries, render each
with `fmt_with`, concatenated with no separator. -/
def Changes.display (alternate : Bool) (cs : Changes) : String :=
  String.join (((cs.iter.filter fun p => p.2 != 0).map
    fun p => Change.fmtWith alternate p.1 p.2))

/-- `repo::Commit` (src/repo/mod.rs): a newtype over the textual hash. -/
structure Commit where
  hash : String
deriving DecidableEq, Repr

/-- `impl Display for Commit`: truncate to `min width len` characters; in
alternate mode wrap in bold yellow.  Rust slices the hash by bytes; for the
hexadecimal hashes this program feeds it, byte and character indices agree. -/
def Commit.display (alternate : Bool) (width : Option Nat) (c : Commit) : String :=
  let len := match width with
    | some p => min p c.hash.length
    | none => c.hash.length
  let h := String.mk (c.hash.data.take len)
  if alternate then escBold ++ escFgYellow ++ h ++ escReset else h

/-- `repo::Tag` (src/repo/mod.rs). -/
structure Tag where
  name : String
deriving DecidableEq, Repr

/-- `impl Display for Tag`: the name in brackets, bold yellow in alternate
mode; the formatter width is ignored. -/
def Tag.display (alternate : Bool) (t : Tag) : String :=
  if alternate then "[" ++ escBold ++ escFgYellow ++ t.name ++ escReset ++ "]"
  else "[" ++ t.name ++ "]"

/-- `repo::branch::RemoteBranch` (src/repo/branch.rs): `(remote, branch)`. -/
structure RemoteBranch where
  remote : String
  branch : String
deriving DecidableEq, Repr

/-- `impl Display for RemoteBranch`: `remote/branch`, with the branch name
replaced by `~` under the sparse (`0`) flag; alternate mode colors both
components blue. -/
def RemoteBranch.display (alternate sparse : Bool) (r : RemoteBranch) : String :=
  if alternate then
    escFgBlue ++ r.remote ++ escReset ++ "/" ++ escFgBlue ++
      (if sparse then "~" else r.branch) ++ escReset
  else
    r.remote ++ "/" ++ (if sparse then "~" else r.branch)

/-- `repo::branch::Divergence` (src/repo/branch.rs): `(ahead, behind)`.
`Divergence::new` carries a `debug_assert!` that at least one count is
nonzero; the constructor itself just stores the pair. -/
structure Divergence where
  ahead : Nat
  behind : Nat
deriving DecidableEq, Repr

/-- `Divergence::new`. -/
def Divergence.new (ahead behind : Nat) : Divergence := ⟨ahead, behind⟩

/-- `impl Display for Divergence`: each nonzero count in sequence, no
separator; alternate mode writes a (immediately reset) red foreground before
each figure. -/
def Divergence.display (alternate : Bool) (d : Divergence) : String :=
  (if d.ahead != 0 then
      (if alternate then escFgRed ++ escReset else "") ++ toString d.ahead
    else "") ++
  (if d.behind != 0 then
      (if alternate then escFgRed ++ escReset else "") ++ toString d.behind
    else "")

/-- `repo::branch::Branch` (src/repo/branch.rs): local name plus optional
upstream data.  The Rust field `local` is spelt `localName` here because
`local` is a Lean keyword. -/
structure Branch where
  localName : String
  remote : Option (RemoteBranch × Option Divergence)
deriving DecidableEq, Repr

/-- `Branch::new`. -/
def Branch.new (localName : String)
    (remoteDiverge : Option (RemoteBranch × Option Divergence)) : Branch :=
  ⟨localName, remoteDiverge⟩

/-- `Branch::remote`: the upstream branch, if configured. -/
def Branch.remoteUpstream (b : Branch) : Option RemoteBranch :=
  b.remote.map Prod.fst

/-- `Branch::divergence`: `self.remote.as_ref().map(|&(_, d)| d).flatten()`. -/
def Branch.divergence (b : Branch) : Option Divergence :=
  (b.remote.map Prod.snd).join

/-- `impl Display for Branch`: the local name; under the sparse (`0`) flag
nothing else.  Otherwise the upstream bracket (`[-]` when none; the remote
rendered sparsely when its branch name equals the local name) and, when an
upstream exists, the divergence bracket. -/
def Branch.display (alternate sparse : Bool) (b : Branch) : String :=
  match b.remote with
  | some (r, d) =>
    b.localName ++
      (if sparse then ""
        else
          "[" ++ RemoteBranch.display alternate (r.branch == b.localName) r ++ "]" ++
          (match alternate, d with
            | true, none => "[" ++ escFgGreen ++ escReset ++ "]"
            | true, some dv => "[" ++ Divergence.display true dv ++ "]"
            | false, none => "[]"
            | false, some dv => "[" ++ Divergence.display false dv ++ "]"))
  | none =>
    b.localName ++
      (if sparse then ""
        else if alternate then "[" ++ escFgBlue ++ "-" ++ escReset ++ "]"
        else "[-]")

/-- `repo::ConflictKind` (src/repo/mod.rs). -/
inductive ConflictKind
  | Merge
  | Rebase
deriving DecidableEq, Repr

/-- `repo::ConflictRef` (src/repo/mod.rs): one side of an in-progress merge
or rebase. -/
inductive ConflictRef
  | Commit (commit : Commit)
  | Branch (branch : Branch)
deriving DecidableEq, Repr

/-- `ConflictRef::commit`. -/
def ConflictRef.commitRef (hash : String) : ConflictRef :=
  .Commit ⟨hash⟩

/-- `ConflictRef::branch`: `Branch::new(local, None)`. -/
def ConflictRef.branchRef (localName : String) : ConflictRef :=
  .Branch (Branch.new localName none)

/-- `impl Display for ConflictRef`: a commit is forwarded to `Commit`'s
display with the formatter's flags (the width at all call sites in `Prompt`'s
display is absent); a branch is always rendered with the sparse (`0`) flag
set ("use spare flag to show no remote info on conflict"), so only its local
name appears.  The incoming sparse flag is not consulted. -/
def ConflictRef.display (alternate _sparse : Bool) (width : Option Nat) :
    ConflictRef → String
  | .Commit c => Commit.display alternate width c
  | .Branch b => Branch.display alternate true b

/-- `repo::DetachedRef` (src/repo/mod.rs): what a detached HEAD points at. -/
inductive DetachedRef
  | Commit (commit : Commit)
  | Tag (tag : Tag)
deriving DecidableEq, Repr

/-- `DetachedRef::commit`. -/
def DetachedRef.commitRef (hash : String) : DetachedRef :=
  .Commit ⟨hash⟩

/-- `DetachedRef::tag`. -/
def DetachedRef.tagRef (tag : String) : DetachedRef :=
  .Tag ⟨tag⟩

/-- `impl Display for DetachedRef`: forwarded to the payload's display with
the formatter's flags (`Tag` ignores the width). -/
def DetachedRef.display (alternate : Bool) (width : Option Nat) :
    DetachedRef → String
  | .Commit c => Commit.display alternate width c
  | .Tag t => Tag.display alternate t

/-- `repo::Prompt` (src/repo/mod.rs): the repository-state sum type.  Every
variant carries a stash count. -/
inductive Prompt
  | Headless (workingTree index : Changes) (stash : Nat)
  | Clean (head : Branch) (stash : Nat)
  | Detached (head : DetachedRef) (workingTree index : Changes) (stash : Nat)
  | Working (branch : Branch) (workingTree index : Changes) (stash : Nat)
  | Conflicted (kind : ConflictKind) (source target : ConflictRef)
      (workingTree index : Changes) (conflicts : Nat) (stash : Nat)

/-- The stash count stored in a `Prompt`, common to all five variants. -/
def Prompt.stashOf : Prompt → Nat
  | .Headless _ _ stash => stash
  | .Clean _ stash => stash
  | .Detached _ _ _ stash => stash
  | .Working _ _ _ stash => stash
  | .Conflicted _ _ _ _ _ _ stash => stash

/-- `fmt_stash` (src/repo/mod.rs): nothing when the stash count is zero,
otherwise ` :: s[N]` with the `s` colored magenta in alternate mode. -/
def fmtStash (alternate : Bool) (stash : Nat) : String :=
  if stash != 0 then
    if alternate then
      " :: " ++ escFgMagenta ++ "s" ++ escReset ++ "[" ++ toString stash ++ "]"
    else
      " :: s[" ++ toString stash ++ "]"
  else ""

/-- `fmt_changes` (src/repo/mod.rs): a ` ::` separator when anything follows;
then the conflict figure ` [!N]` when nonzero, the working-tree block and the
index block.  The `w` and `i` tags are colored unconditionally — also when
the alternate flag is off. -/
def fmtChanges (alternate : Bool) (workingTree index : Changes) (conflicts : Nat) : String :=
  (if workingTree.any || index.any || conflicts != 0 then " ::" else "") ++
  (if conflicts != 0 then
      if alternate then
        " [" ++ escBold ++ escFgRed ++ "!" ++ toString conflicts ++ escReset ++ "]"
      else
        " [!" ++ toString conflicts ++ "]"
    else "") ++
  (if workingTree.any then
      " " ++ escFgYellow ++ "w" ++ escReset ++ "[" ++
        Changes.display alternate workingTree ++ "]"
    else "") ++
  (if index.any then
      " " ++ escFgGreen ++ "i" ++ escReset ++ "[" ++
        Changes.display alternate index ++ "]"
    else "")

/-- The head portion of `impl Display for Prompt` (src/repo/mod.rs): what
each arm writes before its `fmt_stash` call.  The `Detached` arm re-formats
the head with width 7 and only the alternate flag (`{head:#7}` / `{head:7}`),
so the sparse flag does not reach it; `Clean` and `Working` forward the
formatter to the branch, propagating both flags. -/
def Prompt.headPortion (alternate sparse : Bool) : Prompt → String
  | .Headless _ _ _ =>
    if alternate then "[" ++ escBold ++ escFgBlue ++ "headless" ++ escReset ++ "]"
    else "[headless]"
  | .Clean head _ => Branch.display alternate sparse head
  | .Detached head _ _ _ => DetachedRef.display alternate (some 7) head
  | .Working branch _ _ _ => Branch.display alternate sparse branch
  | .Conflicted kind source target _ _ _ _ =>
    match kind with
    | .Merge =>
      ConflictRef.display alternate sparse none source ++ " <- " ++
        ConflictRef.display alternate sparse none target
    | .Rebase =>
      ConflictRef.display alternate sparse none target ++ " -> " ++
        ConflictRef.display alternate sparse none source

/-- The trailing portion of `impl Display for Prompt`: the `fmt_changes` call
each arm makes after `fmt_stash` (the `Clean` arm makes none). -/
def Prompt.changesPortion (alternate : Bool) : Prompt → String
  | .Headless workingTree index _ => fmtChanges alternate workingTree index 0
  | .Clean _ _ => ""
  | .Detached _ workingTree index _ => fmtChanges alternate workingTree index 0
  | .Working _ workingTree index _ => fmtChanges alternate workingTree index 0
  | .Conflicted _ _ _ workingTree index conflicts _ =>
    fmtChanges alternate workingTree index conflicts

/-- `impl Display for Prompt` (src/repo/mod.rs): every arm writes its head
portion, then `fmt_stash`, then (except `Clean`) `fmt_changes`. -/
def Prompt.display (alternate sparse : Bool) (p : Prompt) : String :=
  p.headPortion alternate sparse ++ fmtStash alternate p.stashOf ++
    p.changesPortion alternate

/-- Character-level test that `p` begins the list `s` (Rust's
`str::starts_with` on the pattern, used by `trim_start_matches`). -/
def beginsWith : List Char → List Char → Bool
  | [], _ => true
  | _ :: _, [] => false
  | a :: as, b :: bs => a == b && beginsWith as bs

theorem beginsWith_length : ∀ {p s : List Char}, beginsWith p s = true →
    p.length ≤ s.length
  | [], _, _ => Nat.zero_le _
  | _ :: _, [], h => by simp [beginsWith] at h
  | _ :: as, _ :: bs, h => by
    simp only [beginsWith, Bool.and_eq_true] at h
    simpa [List.length_cons] using Nat.succ_le_succ (beginsWith_length h.2)

/-- `str::trim_start_matches` on character lists: repeatedly remove the
pattern `p` from the front while it is present. -/
def trimStartMatchesL (p : List Char) (s : List Char) : List Char :=
  if h : p ≠ [] ∧ beginsWith p s = true then
    trimStartMatchesL p (s.drop p.length)
  else s
termination_by s.length
decreasing_by
  simp only [List.length_drop]
  have hp : 0 < p.length := List.length_pos.mpr h.1
  exact Nat.sub_lt (Nat.lt_of_lt_of_le hp (beginsWith_length h.2)) hp

/-- `str::trim_start_matches` on strings. -/
def trimStartMatches (s p : String) : String :=
  ⟨trimStartMatchesL p.data s.data⟩

/-- `str::split_once` on character lists: split at the first occurrence of
`c`, or `none` when `c` does not occur. -/
def splitOnceChars (c : Char) : List Char → Option (List Char × List Char)
  | [] => none
  | x :: xs =>
    if x == c then some ([], xs)
    else (splitOnceChars c xs).map fun q => (x :: q.1, q.2)

/-- `str::split_once` on strings. -/
def splitOnce (s : String) (c : Char) : Option (String × String) :=
  (splitOnceChars c s.data).map fun q => (⟨q.1⟩, ⟨q.2⟩)

/-- One iteration of the `git show-ref` scan in `get_prompt` (src/main.rs):
the running state is `(source, is_source_branch, target, is_target_branch)`;
a line whose id equals the current source replaces the source with the ref
name, else a line whose id equals the current target replaces the target. -/
def showRefStep (acc : String × Bool × String × Bool) (entry : String × String) :
    String × Bool × String × Bool :=
  match acc, entry with
  | (src, isSrc, tgt, isTgt), (id, ref) =>
    if id == src then (ref, true, tgt, isTgt)
    else if id == tgt then (src, isSrc, ref, true)
    else (src, isSrc, tgt, isTgt)

/-- `resolve` inside `get_prompt` (src/main.rs): a ref found among the branch
refs becomes a bare branch (stripping `refs/heads/`), otherwise the raw
commit identity. -/
def resolveRef (reference : String) (isBranch : Bool) : ConflictRef :=
  if isBranch then ConflictRef.branchRef (trimStartMatches reference "refs/heads/")
  else ConflictRef.commitRef reference

/-- The `remote_diverge` computation in `get_prompt` (src/main.rs
lines 183-189): map the raw upstream name to a `RemoteBranch` (splitting at
the first `/`; no `/` is the fatal `unwrap`, modelled by the outer `none`)
paired with a `Divergence` only when `ahead + behind != 0`. -/
def remoteDivergeOf (remote? : Option String) (ahead behind : Nat) :
    Option (Option (RemoteBranch × Option Divergence)) :=
  match remote? with
  | none => some none
  | some name =>
    match splitOnce name '/' with
    | none => none
    | some (remote, branch) =>
      some (some (RemoteBranch.mk remote branch,
        if ahead + behind != 0 then some (Divergence.new ahead behind) else none))

/-- The conflict-kind determination in `get_prompt` (src/main.rs
lines 199-211): the `.git/MERGE_HEAD` content first (a merge, with the local
anchor as source), else the `.git/REBASE_HEAD` content (a rebase, with the
raw commit as source), else the fatal `todo!()`, modelled as `none`. -/
def conflictMarkerOf (mergeHead rebaseHead : Option String)
    (localName commit : String) : Option (ConflictKind × String × String) :=
  match mergeHead with
  | some mergeRef => some (ConflictKind.Merge, localName, mergeRef)
  | none =>
    match rebaseHead with
    | some rebaseRef => some (ConflictKind.Rebase, commit, rebaseRef)
    | none => none

/-- `get_prompt` (src/main.rs), from the parsed porcelain data onward
(lines 161-260).  The inputs are the values the parsing loop accumulates:
`commit` (`None` when `branch.oid` is `(initial)`), `local` (`None` when
`branch.head` is `(detached)`), the raw upstream name, the ahead/behind
counts, the conflict and stash tallies and the two change counters — plus
the data the conflict path reads from the repository: the contents of
`.git/MERGE_HEAD` and `.git/REBASE_HEAD` (absent file ↦ `none`) and the
`git show-ref` output as `(id, ref)` pairs.  `none` as a result models the
aborted runs: the `todo!()` when neither conflict marker exists and the
`unwrap` on an upstream name without a `/`. -/
def getPrompt (commit? local? remote? : Option String)
    (ahead behind conflicts stash : Nat) (workingTree index : Changes)
    (mergeHead rebaseHead : Option String) (refs : List (String × String)) :
    Option Prompt :=
  match commit? with
  | none => some (.Headless workingTree index stash)
  | some commit =>
    match (match local? with
            | some l => some l
            | none => if conflicts == 0 then none else some commit : Option String) with
    | none => some (.Detached (.Commit ⟨commit⟩) workingTree index stash)
    | some localName =>
      match remoteDivergeOf remote? ahead behind with
      | none => none
      | some remoteDiverge =>
        if conflicts != 0 then
          match conflictMarkerOf mergeHead rebaseHead localName commit with
          | none => none
          | some (kind, source0, target0) =>
            match refs.foldl showRefStep (source0, false, target0, false) with
            | (source, isSrc, target, isTgt) =>
              some (.Conflicted kind (resolveRef source isSrc) (resolveRef target isTgt)
                workingTree index conflicts stash)
        else if workingTree.any || index.any then
          some (.Working (Branch.new localName remoteDiverge) workingTree index stash)
        else
          some (.Clean (Branch.new localName remoteDiverge) stash)

/-- Modelled from the spec: the in-process acquisition variant's detached
HEAD resolution, which is not part of `src/` (the subprocess variant in
src/main.rs always keeps the raw commit).  Per §4.2 step 3 of the spec,
`head` is resolved "to a Tag if HEAD is directly named by a tag, else to the
raw CommitRef"; `tags` lists the repository's tags as `(name, commit)`
pairs. -/
def resolveDetachedHead (tags : List (String × String)) (commit : String) :
    DetachedRef :=
  match tags.find? (fun tc => tc.2 == commit) with
  | some tc => .Tag ⟨tc.1⟩
  | none => .Commit ⟨commit⟩

/-- Modelled from the spec: the classifier as the in-process variant (not
part of `src/`) runs it — identical to `getPrompt` except that the detached
arm resolves the head through `resolveDetachedHead` instead of always taking
the raw commit. -/
def getPromptTagged (tags : List (String × String))
    (commit? local? remote? : Option String)
    (ahead behind conflicts stash : Nat) (workingTree index : Changes)
    (mergeHead rebaseHead : Option String) (refs : List (String × String)) :
    Option Prompt :=
  match commit? with
  | none => some (.Headless workingTree index stash)
  | some commit =>
    match (match local? with
            | some l => some l
            | none => if conflicts == 0 then none else some commit : Option String) with
    | none =>
      some (.Detached (resolveDetachedHead tags commit) workingTree index stash)
    | some localName =>
      match remoteDivergeOf remote? ahead behind with
      | none => none
      | some remoteDiverge =>
        if conflicts != 0 then
          match conflictMarkerOf mergeHead rebaseHead localName commit with
          | none => none
          | some (kind, source0, target0) =>
            match refs.foldl showRefStep (source0, false, target0, false) with
            | (source, isSrc, target, isTgt) =>
              some (.Conflicted kind (resolveRef source isSrc) (resolveRef target isTgt)
                workingTree index conflicts stash)
        else if workingTree.any || index.any then
          some (.Working (Branch.new localName remoteDiverge) workingTree index stash)
        else
          some (.Clean (Branch.new localName remoteDiverge) stash)

/-- `try_get_repo_for` (src/util.rs): walk the path's ancestors, return the
first that opens as a repository.  `isRepo` abstracts `Repository::open`
succeeding, `ancestors` abstracts `path.ancestors()`. -/
def tryGetRepoFor {α : Type} (isRepo : α → Bool) : List α → Option α
  | [] => none
  | a :: rest => if isRepo a then some a else tryGetRepoFor isRepo rest

/-- The marker `main` (src/main.rs) prints on an internal error before
exiting with code 1: `[`, bold red `error`, `]`. -/
def errorMarker : String :=
  "[" ++ escBold ++ escFgRed ++ "error" ++ escReset ++ "]"

/-- Modelled from the spec: the fixed marker the repository-searching
variant of `main` (not part of `src/`) prints when `try_get_repo_for` finds
no repository at or above the resolved path — per §6, "the word `no repo`
... wrapped in `[...]`", a non-fatal, expected outcome. -/
def noRepoMarker : String := "[no repo]"

/-- Modelled from the spec: the outcome (printed line, exit code) of the
repository-searching variant of `main` (not part of `src/`).  No repository
found prints the `no repo` marker and exits 0; a classification failure
prints the error marker of src/main.rs and exits 1; success prints the
decorated prompt (src/main.rs prints with `{:#}`) and exits 0. -/
def mainOutcome {α : Type} (repo : Option α) (classify : α → Option Prompt) :
    String × Nat :=
  match repo with
  | none => (noRepoMarker, 0)
  | some r =>
    match classify r with
    | some p => (Prompt.display true false p, 0)
    | none => (errorMarker, 1)

/-- A `Divergence` value that is not zero on both sides. -/
def Divergence.nontrivial (d : Divergence) : Prop :=
  d.ahead ≠ 0 ∨ d.behind ≠ 0

/-- Every `Divergence` stored in the branch is nontrivial. -/
def Branch.divergenceOk (b : Branch) : Prop :=
  ∀ d, b.divergence = some d → d.nontrivial

/-- Every `Divergence` reachable from the conflict ref is nontrivial. -/
def ConflictRef.divergenceOk : ConflictRef → Prop
  | .Commit _ => True
  | .Branch b => b.divergenceOk

/-- Every `Divergence` stored anywhere in the prompt is nontrivial. -/
def Prompt.divergenceOk : Prompt → Prop
  | .Headless _ _ _ => True
  | .Clean head _ => head.divergenceOk
  | .Detached _ _ _ _ => True
  | .Working branch _ _ _ => branch.divergenceOk
  | .Conflicted _ source target _ _ _ _ =>
    source.divergenceOk ∧ target.divergenceOk

theorem strJoinNil : String.join [] = "" := rfl

theorem strJoinCons (a : String) (l : List String) :
    String.join (a :: l) = a ++ String.join l := by
  apply String.ext
  simp

theorem strMergeLit (a b c : String) (h : a ++ b = c) (R : String) :
    a ++ (b ++ R) = c ++ R := by
  rw [← String.append_assoc, h]

theorem remoteDivergeOf_divergenceOk (localName : String) (remote? : Option String)
    (ahead behind : Nat) (rd : Option (RemoteBranch × Option Divergence))
    (h : remoteDivergeOf remote? ahead behind = some rd) :
    (Branch.new localName rd).divergenceOk := by
  intro d hd
  unfold remoteDivergeOf at h
  split at h
  · simp only [Option.some.injEq] at h
    subst h
    simp [Branch.new, Branch.divergence, Option.join] at hd
  · split at h
    · simp at h
    · simp only [Option.some.injEq] at h
      subst h
      by_cases hab : ahead + behind = 0
      · rw [if_neg (by simp [hab])] at hd
        simp [Branch.new, Branch.divergence, Option.join] at hd
      · rw [if_pos (by simp [hab])] at hd
        simp [Branch.new, Branch.divergence, Option.join] at hd
        subst hd
        simp only [Divergence.nontrivial, Divergence.new]
        omega

theorem resolveRef_divergenceOk (reference : String) (isBranch : Bool) :
    (resolveRef reference isBranch).divergenceOk := by
  unfold resolveRef
  split
  · intro d hd
    simp [ConflictRef.branchRef, Branch.new, Branch.divergence, Option.join] at hd
  · trivial

/-- C1: with an unborn HEAD (`branch.oid` is `(initial)`, so the parsed
commit is `none`), `get_prompt` returns `Headless` carrying the accumulated
working-tree and index counts and the stash tally, whatever the conflict
tally, branch name, upstream data and marker files are; no detached,
conflict or branch resolution is reached. -/
theorem c1_unborn_head_yields_headless (local? remote? : Option String)
    (ahead behind conflicts stash : Nat) (workingTree index : Changes)
    (mergeHead rebaseHead : Option String) (refs : List (String × String)) :
    getPrompt none local? remote? ahead behind conflicts stash workingTree index
      mergeHead rebaseHead refs = some (.Headless workingTree index stash) := rfl

/-- C6: every `Conflicted` prompt `get_prompt` produces stores a strictly
positive conflict count — the `Prompt::conflict` call sits inside the
`conflicts != 0` branch and stores the tally itself. -/
theorem c6_conflicted_count_positive (commit? local? remote? : Option String)
    (ahead behind conflicts stash : Nat) (workingTree index : Changes)
    (mergeHead rebaseHead : Option String) (refs : List (String × String))
    (kind : ConflictKind) (source target : ConflictRef) (w i : Changes) (n st : Nat)
    (h : getPrompt commit? local? remote? ahead behind conflicts stash workingTree index
      mergeHead rebaseHead refs = some (.Conflicted kind source target w i n st)) :
    0 < n := by
  unfold getPrompt at h
  split at h
  · simp at h
  · split at h
    · simp at h
    · split at h
      · simp at h
      · by_cases hc : conflicts = 0
        · rw [if_neg (by simp [hc])] at h
          split at h <;> simp at h
        · rw [if_pos (by simp [hc])] at h
          split at h
          · simp at h
          · split at h
            simp only [Option.some.injEq, Prompt.Conflicted.injEq] at h
            obtain ⟨-, -, -, -, -, hn, -⟩ := h
            subst hn
            exact Nat.pos_of_ne_zero hc

/-- C6 witness: a concrete conflicted run (merge marker present, 2 conflicted
entries) through `c6_conflicted_count_positive`. -/
theorem c6_conflicted_count_positive_witness : 0 < 2 :=
  c6_conflicted_count_positive (some "aaaa") (some "main") none 0 0 2 0
    Changes.new Changes.new (some "bbbb") none []
    .Merge (resolveRef "main" false) (resolveRef "bbbb" false)
    Changes.new Changes.new 2 0 rfl

/-- C5: no run of `get_prompt` ever stores a `Divergence` with both counts
zero — zero/zero upstreams become `(RemoteBranch, none)` — and, across the
`Branch` type itself, a divergence can only be present when a remote branch
is present. -/
theorem c5_divergence_nontrivial (commit? local? remote? : Option String)
    (ahead behind conflicts stash : Nat) (workingTree index : Changes)
    (mergeHead rebaseHead : Option String) (refs : List (String × String))
    (p : Prompt)
    (h : getPrompt commit? local? remote? ahead behind conflicts stash workingTree index
      mergeHead rebaseHead refs = some p) :
    p.divergenceOk ∧ ∀ b : Branch, b.divergence.isSome → b.remoteUpstream.isSome := by
  constructor
  · unfold getPrompt at h
    split at h
    · simp only [Option.some.injEq] at h
      subst h
      trivial
    · split at h
      · simp only [Option.some.injEq] at h
        subst h
        trivial
      · split at h
        · simp at h
        · rename_i remoteDiverge hrem
          by_cases hc : conflicts = 0
          · rw [if_neg (by simp [hc])] at h
            split at h
            · simp only [Option.some.injEq] at h
              subst h
              exact remoteDivergeOf_divergenceOk _ _ _ _ _ hrem
            · simp only [Option.some.injEq] at h
              subst h
              exact remoteDivergeOf_divergenceOk _ _ _ _ _ hrem
          · rw [if_pos (by simp [hc])] at h
            split at h
            · simp at h
            · split at h
              simp only [Option.some.injEq] at h
              subst h
              exact ⟨resolveRef_divergenceOk _ _, resolveRef_divergenceOk _ _⟩
  · intro b hb
    obtain ⟨l, r⟩ := b
    cases r with
    | none => simp [Branch.divergence, Option.join] at hb
    | some rd => simp [Branch.remoteUpstream]

/-- C5 witness: a concrete run (upstream `origin/main`, 1 ahead, one
working-tree add) through `c5_divergence_nontrivial`. -/
theorem c5_divergence_nontrivial_witness :
    (Prompt.Working (Branch.new "main" (some (⟨"origin", "main"⟩,
        some (Divergence.new 1 0)))) (Changes.new.set .Add 1) Changes.new 0).divergenceOk
    ∧ ∀ b : Branch, b.divergence.isSome → b.remoteUpstream.isSome :=
  c5_divergence_nontrivial (some "aaaa") (some "main") (some "origin/main") 1 0 0 0
    (Changes.new.set .Add 1) Changes.new none none [] _ rfl

/-- C4: with a born HEAD and a nonzero conflict tally (and an upstream that
parses, so the run reaches the conflict path), the conflict kind comes from
the merge marker first and the rebase marker second, and with neither marker
present `get_prompt` aborts (`todo!()`), returning no prompt and picking no
kind. -/
theorem c4_conflict_marker_order (commit : String) (local? remote? : Option String)
    (ahead behind conflicts stash : Nat) (workingTree index : Changes)
    (mergeHead rebaseHead : Option String) (refs : List (String × String))
    (rd : Option (RemoteBranch × Option Divergence))
    (hconf : conflicts ≠ 0)
    (hrem : remoteDivergeOf remote? ahead behind = some rd) :
    (mergeHead = none → rebaseHead = none →
      getPrompt (some commit) local? remote? ahead behind conflicts stash workingTree index
        mergeHead rebaseHead refs = none)
    ∧ (∀ m, mergeHead = some m → ∃ src tgt,
        getPrompt (some commit) local? remote? ahead behind conflicts stash workingTree index
          mergeHead rebaseHead refs
          = some (.Conflicted .Merge src tgt workingTree index conflicts stash))
    ∧ (∀ r, mergeHead = none → rebaseHead = some r → ∃ src tgt,
        getPrompt (some commit) local? remote? ahead behind conflicts stash workingTree index
          mergeHead rebaseHead refs
          = some (.Conflicted .Rebase src tgt workingTree index conflicts stash)) := by
  refine ⟨?_, ?_, ?_⟩
  · intro hm hr
    subst hm
    subst hr
    cases local? <;> simp [getPrompt, hrem, conflictMarkerOf, hconf]
  · intro m hm
    subst hm
    cases local? with
    | none =>
      rcases hfold : refs.foldl showRefStep (commit, false, m, false) with ⟨s, sb, t, tb⟩
      refine ⟨resolveRef s sb, resolveRef t tb, ?_⟩
      simp [getPrompt, hrem, conflictMarkerOf, hconf, hfold]
    | some l =>
      rcases hfold : refs.foldl showRefStep (l, false, m, false) with ⟨s, sb, t, tb⟩
      refine ⟨resolveRef s sb, resolveRef t tb, ?_⟩
      simp [getPrompt, hrem, conflictMarkerOf, hconf, hfold]
  · intro r hm hr
    subst hm
    subst hr
    cases local? with
    | none =>
      rcases hfold : refs.foldl showRefStep (commit, false, r, false) with ⟨s, sb, t, tb⟩
      refine ⟨resolveRef s sb, resolveRef t tb, ?_⟩
      simp [getPrompt, hrem, conflictMarkerOf, hconf, hfold]
    | some l =>
      rcases hfold : refs.foldl showRefStep (commit, false, r, false) with ⟨s, sb, t, tb⟩
      refine ⟨resolveRef s sb, resolveRef t tb, ?_⟩
      simp [getPrompt, hrem, conflictMarkerOf, hconf, hfold]

/-- C4 witness: with 2 conflicts on branch `main` and neither marker file
present, `c4_conflict_marker_order` yields an aborted classification. -/
theorem c4_conflict_marker_order_witness :
    getPrompt (some "aaaa") (some "main") none 0 0 2 0 Changes.new Changes.new
      none none [] = none :=
  (c4_conflict_marker_order "aaaa" (some "main") none 0 0 2 0 Changes.new Changes.new
    none none [] none (by decide) rfl).1 rfl rfl

/-- C3: with HEAD not attached to a branch name and a zero conflict tally,
the classifier returns `Detached`, the head resolved to a `Tag` when a tag
directly names the commit and to the raw commit otherwise; detaching exactly
at tag `v1.0` yields a `Tag` head.  (The tag lookup lives in the acquisition
variant modelled from the spec as `resolveDetachedHead` /
`getPromptTagged`.) -/
theorem c3_detached_head_resolution (tags : List (String × String)) (commit : String)
    (remote? : Option String) (ahead behind stash : Nat) (workingTree index : Changes)
    (mergeHead rebaseHead : Option String) (refs : List (String × String)) :
    getPromptTagged tags (some commit) none remote? ahead behind 0 stash workingTree index
      mergeHead rebaseHead refs
      = some (.Detached (resolveDetachedHead tags commit) workingTree index stash)
    ∧ (∀ tc, tags.find? (fun x => x.2 == commit) = some tc →
        resolveDetachedHead tags commit = .Tag ⟨tc.1⟩)
    ∧ (tags.find? (fun x => x.2 == commit) = none →
        resolveDetachedHead tags commit = .Commit ⟨commit⟩)
    ∧ getPromptTagged [("v1.0", "deadbeef")] (some "deadbeef") none none 0 0 0 0
        Changes.new Changes.new none none []
      = some (.Detached (.Tag ⟨"v1.0"⟩) Changes.new Changes.new 0) := by
  refine ⟨rfl, ?_, ?_, rfl⟩
  · intro tc h
    unfold resolveDetachedHead
    rw [h]
  · intro h
    unfold resolveDetachedHead
    rw [h]

/-- C3 witness: the tag-resolution conjuncts of `c3_detached_head_resolution`
applied at a repository with tag `v1.0` on the detached commit. -/
theorem c3_detached_head_resolution_witness :
    resolveDetachedHead [("v1.0", "deadbeef")] "deadbeef" = .Tag ⟨"v1.0"⟩ :=
  (c3_detached_head_resolution [("v1.0", "deadbeef")] "deadbeef" none 0 0 0
    Changes.new Changes.new none none []).2.1 ("v1.0", "deadbeef") rfl

/-- C2 counterexample: at the claimed inputs the plain renders differ from
the claimed lines — the upstream branch name `main` equals the local name,
so it is abbreviated to `~` even outside sparse mode (and the Working render
additionally colors the `w`/`i` tags). -/
theorem c2_plain_render_counterexample :
    ¬(Prompt.display false false
        (.Clean (Branch.new "main" (some (⟨"origin", "main"⟩, none))) 0)
        = "main[origin/main][]"
      ∧ Prompt.display false false
          (.Working (Branch.new "main" (some (⟨"origin", "main"⟩,
            some (Divergence.new 2 1)))) (Changes.new.set .Mod 1)
            (Changes.new.set .Add 1) 0)
        = "main[origin/main][21] :: w[~1] i[+1]") := by
  intro h
  exact absurd h.1 (by decide)

/-- C2 amended: the clean branch renders `main[origin/~][]` (the upstream
branch name equal to the local one is collapsed to `~` in every mode), and
the diverged working state renders `main[origin/~][21]` followed by the
change blocks whose `w` and `i` tags carry color escapes even in plain
mode. -/
theorem c2_plain_render_amended :
    Prompt.display false false
      (.Clean (Branch.new "main" (some (⟨"origin", "main"⟩, none))) 0)
      = "main[origin/~][]"
    ∧ Prompt.display false false
        (.Working (Branch.new "main" (some (⟨"origin", "main"⟩,
          some (Divergence.new 2 1)))) (Changes.new.set .Mod 1)
          (Changes.new.set .Add 1) 0)
      = "main[origin/~][21] :: " ++ escFgYellow ++ "w" ++ escReset ++ "[~1] "
          ++ escFgGreen ++ "i" ++ escReset ++ "[+1]" :=
  ⟨rfl, rfl⟩

/-- C7: plain rendering of `Changes` walks the kinds in declaration order
`Add, Mod, Del, Ren, Typ`, emits only nonzero counts, each as its sigil
(`+ ~ - * ?`) directly followed by the decimal count with no separators;
`any` holds exactly when some kind is nonzero, and a fresh `Changes` renders
empty with `any` false. -/
theorem c7_changes_render (cs : Changes) :
    Changes.display false cs =
      (if cs .Add ≠ 0 then "+" ++ toString (cs .Add) else "") ++
      (if cs .Mod ≠ 0 then "~" ++ toString (cs .Mod) else "") ++
      (if cs .Del ≠ 0 then "-" ++ toString (cs .Del) else "") ++
      (if cs .Ren ≠ 0 then "*" ++ toString (cs .Ren) else "") ++
      (if cs .Typ ≠ 0 then "?" ++ toString (cs .Typ) else "")
    ∧ (cs.any = true ↔ ∃ k, cs k ≠ 0)
    ∧ Changes.display false Changes.new = ""
    ∧ Changes.new.any = false := by
  refine ⟨?_, ?_, rfl, rfl⟩
  · by_cases hA : cs .Add = 0 <;> by_cases hM : cs .Mod = 0 <;>
      by_cases hD : cs .Del = 0 <;> by_cases hR : cs .Ren = 0 <;>
      by_cases hT : cs .Typ = 0 <;>
      simp [Changes.display, Changes.iter, Change.kinds, Change.fmtWith, strJoinCons,
        strJoinNil, hA, hM, hD, hR, hT, String.append_assoc]
  · simp only [Changes.any, Changes.iter, Change.kinds, List.map_cons, List.map_nil,
      List.any_cons, List.any_nil, Bool.or_eq_true, bne_iff_ne, ne_eq, Bool.or_false]
    constructor
    · rintro (h | h | h | h | h) <;> exact ⟨_, h⟩
    · rintro ⟨k, hk⟩
      cases k <;> tauto

/-- C9: a plain-mode merge conflict renders source, ` <- `, target, then
` :: [!N]`; a rebase conflict reverses both the arrow and the display order,
rendering target, ` -> `, source.  Branch endpoints show only their bare
local name, whatever upstream data they carry. -/
theorem c9_conflict_render (s t : String)
    (rs rt : Option (RemoteBranch × Option Divergence)) (n : Nat) (h : n ≠ 0) :
    Prompt.display false false (.Conflicted .Merge (.Branch (Branch.new s rs))
        (.Branch (Branch.new t rt)) Changes.new Changes.new n 0)
      = s ++ " <- " ++ t ++ " :: [!" ++ toString n ++ "]"
    ∧ Prompt.display false false (.Conflicted .Rebase (.Branch (Branch.new s rs))
        (.Branch (Branch.new t rt)) Changes.new Changes.new n 0)
      = t ++ " -> " ++ s ++ " :: [!" ++ toString n ++ "]" := by
  have hne : (n != 0) = true := by simp [h]
  constructor <;>
    cases rs <;> cases rt <;>
      simp [Prompt.display, Prompt.headPortion, Prompt.changesPortion, Prompt.stashOf,
        ConflictRef.display, Branch.display, Branch.new, fmtStash, fmtChanges, Changes.any,
        Changes.iter, Change.kinds, Changes.new, hne, String.append_assoc,
        strMergeLit " ::" " [!" " :: [!" rfl]

/-- C9 witness: merge of `feature` into `main` with 2 conflicted entries
through `c9_conflict_render`. -/
theorem c9_conflict_render_witness :
    Prompt.display false false (.Conflicted .Merge (.Branch (Branch.new "main" none))
      (.Branch (Branch.new "feature" none)) Changes.new Changes.new 2 0)
      = "main <- feature :: [!2]" :=
  (c9_conflict_render "main" "feature" none none 2 (by decide)).1.trans rfl

/-- C10: every prompt renders as its head portion, then the stash segment,
then its change portion, in every mode; the segment is empty when the stash
count is zero and is ` :: s[N]` otherwise (with the `s` colored magenta in
decorated mode). -/
theorem c10_stash_segment (p : Prompt) (alternate sparse : Bool) :
    Prompt.display alternate sparse p
      = p.headPortion alternate sparse ++ fmtStash alternate p.stashOf
          ++ p.changesPortion alternate
    ∧ fmtStash alternate 0 = ""
    ∧ (∀ n, n ≠ 0 → fmtStash false n = " :: s[" ++ toString n ++ "]")
    ∧ (∀ n, n ≠ 0 → fmtStash true n
        = " :: " ++ escFgMagenta ++ "s" ++ escReset ++ "[" ++ toString n ++ "]") := by
  refine ⟨rfl, rfl, ?_, ?_⟩
  · intro n hn
    rw [fmtStash, if_pos (by simp [hn] : (n != 0) = true)]
    rfl
  · intro n hn
    rw [fmtStash, if_pos (by simp [hn] : (n != 0) = true)]
    rfl

/-- C10 witness: three stashed entries render as ` :: s[3]` in plain mode,
through `c10_stash_segment`. -/
theorem c10_stash_segment_witness : fmtStash false 3 = " :: s[3]" :=
  ((c10_stash_segment (.Headless Changes.new Changes.new 3) false false).2.2.1
    3 (by decide)).trans rfl

/-- C8: when the ancestor walk finds no repository, the program prints the
fixed `no repo` marker with exit code 0 — an expected, non-fatal outcome —
while an internal error prints the distinct error marker with exit code 1.
(The repository-searching `main` is modelled from the spec on top of
`try_get_repo_for` from src/util.rs.) -/
theorem c8_no_repo_marker {α : Type} (isRepo : α → Bool) (ancestors : List α)
    (classify : α → Option Prompt)
    (h : tryGetRepoFor isRepo ancestors = none) :
    mainOutcome (tryGetRepoFor isRepo ancestors) classify = (noRepoMarker, 0)
    ∧ noRepoMarker ≠ errorMarker
    ∧ (∀ r, classify r = none →
        mainOutcome (some r) classify = (errorMarker, 1) ∧ (1 : Nat) ≠ 0) := by
  refine ⟨?_, by decide, ?_⟩
  · rw [h]
    rfl
  · intro r hr
    refine ⟨?_, by decide⟩
    simp [mainOutcome, hr]

/-- C8 witness: `c8_no_repo_marker` on a two-ancestor path with no
repository anywhere. -/
theorem c8_no_repo_marker_witness :
    mainOutcome (tryGetRepoFor (fun _ : Nat => false) [0, 1]) (fun _ => none)
      = (noRepoMarker, 0)
    ∧ noRepoMarker ≠ errorMarker :=
  ⟨(c8_no_repo_marker (fun _ : Nat => false) [0, 1] (fun _ => none) rfl).1,
   (c8_no_repo_marker (fun _ : Nat => false) [0, 1] (fun _ => none) rfl).2.1⟩
